import Mathlib

/-!
Shallow embedding of the core of `twitch-watcher-go` (a Twitch channel-points
automation daemon) and verification of a list of claims about it.

Conventions of the embedding:
* Go `float64` values are modelled as exact rationals (`ℚ`); `math.Round`,
  `math.Min`/`math.Max` and float-to-int truncation are modelled by the
  corresponding exact operations on `ℚ`.
* Go `int` is modelled as `ℤ` (no overflow is relevant to any claim).
* Go maps used as sets / association tables are modelled as lists of pairs;
  deletion is modelled by filtering the key out.
* Randomness (`rand.Float64`) is modelled by passing the drawn value as an
  explicit parameter, constrained by the hypothesis of the theorem to the
  range the generator can produce.
* Out-of-range slice indexing panics in Go; the embedding totalises those
  reads with a designated dummy element.  Every theorem that touches such a
  read carries an in-range hypothesis, so the dummy is never load-bearing.
-/

namespace TwitchMiner

/-- Go `math.Round`: round to nearest integer, halves away from zero. -/
def goRound (x : ℚ) : ℤ :=
  if 0 ≤ x then ⌊x + 1/2⌋ else -⌊-x + 1/2⌋

/-- Go `int(x)` conversion from `float64`: truncation toward zero. -/
def goTrunc (x : ℚ) : ℤ :=
  if 0 ≤ x then ⌊x⌋ else ⌈x⌉

/-- Model of `utils.FloatRound(number, ndigits)`: rounds to `ndigits` decimal places
(`math.Round(number*pow) / pow`). -/
def floatRound (x : ℚ) (ndigits : ℕ) : ℚ :=
  (goRound (x * 10 ^ ndigits) : ℚ) / 10 ^ ndigits

/-! ## The `model` package: bet strategies, outcomes, filter conditions
(source file `part_023`, package `model`). -/

/-- Model of `model.Strategy`: the prediction betting strategy. -/
inductive Strategy where
  | mostVoted
  | highOdds
  | percentage
  | smartMoney
  | smart
  | number1
  | number2
  | number3
  | number4
  | number5
  | number6
  | number7
  | number8
  deriving DecidableEq, Repr

/-- Model of `model.Condition`: comparison operator of a filter condition. -/
inductive Condition where
  | gt
  | lt
  | gte
  | lte
  deriving DecidableEq, Repr

/-- Model of `model.OutcomeKey`: keys used to access outcome statistics.  In Go this
is a string type; only the eight declared constants are ever used. -/
inductive OutcomeKey where
  | percentageUsers
  | oddsPercentage
  | odds
  | topPoints
  | totalUsers
  | totalPoints
  | decisionUsers
  | decisionPoints
  deriving DecidableEq, Repr

/-- Model of `model.DelayMode`: how the prediction delay is calculated. -/
inductive DelayMode where
  | fromStart
  | fromEnd
  | percentage
  deriving DecidableEq, Repr

/-- Model of `model.FilterCondition`: a condition for filtering predictions before
betting (`by`, `where`, `value`). -/
structure FilterCondition where
  by_ : OutcomeKey
  whereCond : Condition
  value : ℚ
  deriving DecidableEq, Repr

/-- Model of `model.BetSettings`: configuration for automatic prediction betting. -/
structure BetSettings where
  strategy : Strategy
  percentage : ℤ
  percentageGap : ℤ
  maxPoints : ℤ
  minimumPoints : ℤ
  stealthMode : Bool
  filterCondition : Option FilterCondition
  delay : ℚ
  delayMode : DelayMode
  deriving DecidableEq, Repr

/-- Model of `model.Outcome`: a single prediction outcome with computed statistics. -/
structure Outcome where
  id : String
  title : String
  color : String
  totalUsers : ℤ
  totalPoints : ℤ
  topPoints : ℤ
  percentageUsers : ℚ
  odds : ℚ
  oddsPercentage : ℚ
  deriving DecidableEq, Repr

/-- The all-zero outcome used to totalise out-of-range slice reads. -/
def dOutcome : Outcome :=
  { id := "", title := "", color := "", totalUsers := 0, totalPoints := 0,
    topPoints := 0, percentageUsers := 0, odds := 0, oddsPercentage := 0 }

/-- Model of `model.BetDecision`: result of a bet calculation. -/
structure BetDecision where
  choice : ℤ
  amount : ℤ
  outcomeID : String
  deriving DecidableEq, Repr

/-- Model of `model.Bet`: state of a prediction bet calculation. -/
structure Bet where
  outcomes : List Outcome
  decision : BetDecision
  totalUsers : ℤ
  totalPoints : ℤ
  settings : BetSettings
  deriving DecidableEq, Repr

/-- Model of `model.NewBet`: fresh bet with `Choice: -1`. -/
def NewBet (outcomes : List Outcome) (settings : BetSettings) : Bet :=
  { outcomes := outcomes,
    decision := { choice := -1, amount := 0, outcomeID := "" },
    totalUsers := 0, totalPoints := 0, settings := settings }

/-- Model of `Bet.UpdateOutcomes`: refresh outcome statistics from new data.  Copies
`TotalUsers`/`TotalPoints` (and positive `TopPoints`) from the update at the
same index, recomputes the totals, and — when both totals are positive —
derives `PercentageUsers`, `Odds` and `OddsPercentage` rounded to 2 decimal
places. -/
def Bet.updateOutcomes (b : Bet) (updates : List Outcome) : Bet :=
  let outcomes1 := copyTotals b.outcomes updates
  let totalUsers : ℤ := (outcomes1.map (·.totalUsers)).sum
  let totalPoints : ℤ := (outcomes1.map (·.totalPoints)).sum
  let outcomes2 :=
    if 0 < totalUsers ∧ 0 < totalPoints then
      outcomes1.map (deriveStats totalUsers totalPoints)
    else outcomes1
  { b with
    outcomes := outcomes2
    totalUsers := totalUsers
    totalPoints := totalPoints }
where
  /-- The first loop of `Bet.UpdateOutcomes`: copy `TotalUsers`/`TotalPoints`
  (and positive `TopPoints`) from the update at the same index. -/
  copyTotals (outcomes updates : List Outcome) : List Outcome :=
    outcomes.mapIdx fun i o =>
      match updates.get? i with
      | some u =>
          { o with
            totalUsers := u.totalUsers
            totalPoints := u.totalPoints
            topPoints := if 0 < u.topPoints then u.topPoints else o.topPoints }
      | none => o
  /-- The derivation loop body of `Bet.UpdateOutcomes`. -/
  deriveStats (totalUsers totalPoints : ℤ) (o : Outcome) : Outcome :=
    let pct := floatRound ((100 * (o.totalUsers : ℚ)) / (totalUsers : ℚ)) 2
    let odds :=
      if o.totalPoints = 0 then 0
      else floatRound ((totalPoints : ℚ) / (o.totalPoints : ℚ)) 2
    let oddsPct := if odds = 0 then 0 else floatRound (100 / odds) 2
    { o with percentageUsers := pct, odds := odds, oddsPercentage := oddsPct }

/-- Model of `Bet.outcomeValue(index, key)`: statistic `key` of outcome `index`.
The two virtual decision keys fall into the Go `default` branch (value 0). -/
def Bet.outcomeValue (b : Bet) (index : ℕ) (key : OutcomeKey) : ℚ :=
  let outcome := b.outcomes.getD index dOutcome
  match key with
  | .totalUsers => (outcome.totalUsers : ℚ)
  | .totalPoints => (outcome.totalPoints : ℚ)
  | .percentageUsers => outcome.percentageUsers
  | .odds => outcome.odds
  | .oddsPercentage => outcome.oddsPercentage
  | .topPoints => (outcome.topPoints : ℚ)
  | _ => 0

/-- Model of `Bet.returnChoice(key)`: index of the first outcome maximising `key`. -/
def Bet.returnChoice (b : Bet) (key : OutcomeKey) : ℕ :=
  (List.range b.outcomes.length).foldl
    (fun largest i =>
      if b.outcomeValue largest key < b.outcomeValue i key then i else largest)
    0

/-- Model of `Bet.returnNumberChoice(number)`: the fixed index if in range, else 0. -/
def Bet.returnNumberChoice (b : Bet) (number : ℕ) : ℕ :=
  if number < b.outcomes.length then number else 0

/-- The `comparedValue` computation of `Bet.Skip` (its local variables
`resolvedKey` and `comparedValue`).  Note the aggregation branch tests the
ORIGINAL key against `total_users`/`total_points`, so the virtual keys
`decision_users`/`decision_points` read only the chosen outcome
(`Decision.Choice`). -/
def Bet.comparedValue (b : Bet) (fc : FilterCondition) : ℚ :=
  let key := fc.by_
  let resolvedKey :=
    if key = .decisionUsers then OutcomeKey.totalUsers
    else if key = .decisionPoints then OutcomeKey.totalPoints
    else key
  if key = .totalUsers ∨ key = .totalPoints then
    ((List.range b.outcomes.length).map
      (fun i => b.outcomeValue i resolvedKey)).sum
  else
    b.outcomeValue b.decision.choice.toNat resolvedKey

/-- Model of `Bet.Skip`: evaluate the filter condition; returns (skip?, compared
value). -/
def Bet.skip (b : Bet) : Bool × ℚ :=
  match b.settings.filterCondition with
  | none => (false, 0)
  | some fc =>
    let comparedValue := b.comparedValue fc
    let pass : Bool :=
      match fc.whereCond with
      | .gt => decide (fc.value < comparedValue)
      | .lt => decide (comparedValue < fc.value)
      | .gte => decide (fc.value ≤ comparedValue)
      | .lte => decide (comparedValue ≤ fc.value)
    if pass then (false, comparedValue) else (true, comparedValue)

/-- The strategy `switch` of `Bet.Calculate`: the chosen index, `-1` when no
choice is made (SMART with fewer than two outcomes). -/
def Bet.chooseIndex (b : Bet) : ℤ :=
  match b.settings.strategy with
  | .mostVoted => b.returnChoice .totalUsers
  | .highOdds => b.returnChoice .odds
  | .percentage => b.returnChoice .oddsPercentage
  | .smartMoney => b.returnChoice .topPoints
  | .number1 => b.returnNumberChoice 0
  | .number2 => b.returnNumberChoice 1
  | .number3 => b.returnNumberChoice 2
  | .number4 => b.returnNumberChoice 3
  | .number5 => b.returnNumberChoice 4
  | .number6 => b.returnNumberChoice 5
  | .number7 => b.returnNumberChoice 6
  | .number8 => b.returnNumberChoice 7
  | .smart =>
    if 2 ≤ b.outcomes.length then
      let diff := |(b.outcomes.getD 0 dOutcome).percentageUsers -
                   (b.outcomes.getD 1 dOutcome).percentageUsers|
      if diff < (b.settings.percentageGap : ℚ) then b.returnChoice .odds
      else b.returnChoice .totalUsers
    else -1

/-- The first half of the amount computation of `Bet.Calculate`: percentage
of the balance truncated to int, capped at `MaxPoints`.  In `Bet.betAmount`,
`stealthReduction` models `int(1.0 + rand.Float64()*4.0)`, the drawn stealth
reduction (an integer in `1..4`), passed explicitly. -/
def Bet.cappedAmount (b : Bet) (balance : ℤ) : ℤ :=
  let amount0 := goTrunc ((balance : ℚ) * (b.settings.percentage : ℚ) / 100)
  if b.settings.maxPoints < amount0 then b.settings.maxPoints else amount0

/-- The stealth-mode reduction of `Bet.Calculate` applied on top of
`Bet.cappedAmount`. -/
def Bet.betAmount (b : Bet) (balance stealthReduction : ℤ) (chosen : Outcome) : ℤ :=
  if b.settings.stealthMode = true ∧ chosen.topPoints ≤ b.cappedAmount balance ∧
      0 < chosen.topPoints then
    chosen.topPoints - stealthReduction
  else b.cappedAmount balance

/-- Model of `Bet.Calculate(balance)`: decide outcome and amount (see
`Bet.chooseIndex` and `Bet.betAmount` for the two halves of the body). -/
def Bet.calculate (b : Bet) (balance stealthReduction : ℤ) : BetDecision :=
  let choice := b.chooseIndex
  if 0 ≤ choice ∧ choice < (b.outcomes.length : ℤ) then
    let chosen := b.outcomes.getD choice.toNat dOutcome
    { choice := choice
      amount := b.betAmount balance stealthReduction chosen
      outcomeID := chosen.id }
  else
    { choice := choice, amount := 0, outcomeID := "" }

/-- Model of `Bet.Calculate` as a state transformer: Go mutates `b.Decision`. -/
def Bet.calculateBet (b : Bet) (balance stealthReduction : ℤ) : Bet :=
  { b with decision := b.calculate balance stealthReduction }

/-- Model of `model.GetPredictionWindow(settings, predictionWindowSeconds)`: the actual
delay before placing a bet. -/
def GetPredictionWindow (settings : BetSettings) (predictionWindowSeconds : ℚ) : ℚ :=
  match settings.delayMode with
  | .fromStart => min settings.delay predictionWindowSeconds
  | .fromEnd => max (predictionWindowSeconds - settings.delay) 0
  | .percentage => predictionWindowSeconds * settings.delay

/-- Model of `model.PredictionResult`: the result of a resolved prediction. -/
structure PredictionResult where
  resultString : String
  type_ : String
  gained : ℤ
  deriving DecidableEq, Repr

/-- Model of `model.EventPrediction`: an active prediction event on a channel.
Timestamps are seconds (as `ℚ`); the streamer back-reference is kept out of
the event and handled at the miner level. -/
structure EventPrediction where
  eventID : String
  title : String
  createdAt : ℚ
  predictionWindowSeconds : ℚ
  status : String
  result : PredictionResult
  betConfirmed : Bool
  betPlaced : Bool
  bet : Bet
  deriving DecidableEq, Repr

/-- The three entries of the `points` map built by
`EventPrediction.ParseResult`; a key that is never set reads as 0 (Go map
default), which is how `placed`/`won`/`gained` are initialised here. -/
structure ResultPoints where
  placed : ℤ
  won : ℤ
  gained : ℤ
  deriving DecidableEq, Repr

/-- Model of `EventPrediction.ParseResult(resultType, pointsWon)`: computes the points
breakdown and stores the `Result` on the event. -/
def EventPrediction.parseResult (ep : EventPrediction) (resultType : String)
    (pointsWon : ℤ) : EventPrediction × ResultPoints :=
  let placed := if resultType ≠ "REFUND" then ep.bet.decision.amount else 0
  let won := if 0 < pointsWon ∨ resultType = "REFUND" then pointsWon else 0
  let gained := if resultType ≠ "REFUND" then won - placed else 0
  let action :=
    if resultType = "LOSE" then "Lost"
    else if resultType = "REFUND" then "Refunded"
    else "Gained"
  let pfx := if 0 ≤ gained then "+" else ""
  let res : PredictionResult :=
    { resultString := resultType ++ ", " ++ action ++ ": " ++ pfx ++ toString gained
      type_ := resultType
      gained := gained }
  ({ ep with result := res }, { placed := placed, won := won, gained := gained })

/-! ## The miner's prediction-result handling
(source file `part_002`, package `miner`: `Miner.handlePredictionsUser`,
`Miner.handlePredictionResult`) and `Streamer.UpdateHistory`
(source file `part_020`, package `model`). -/

/-- Model of `model.HistoryEntry`: cumulative per-reason counters. -/
structure HistoryEntry where
  counter : ℤ
  amount : ℤ
  deriving DecidableEq, Repr

/-- The slice of `model.Streamer` state touched by the prediction-result
handler: the per-reason history map and the watch-streak flag. -/
structure StreamerHistoryState where
  history : List (String × HistoryEntry)
  watchStreakMissing : Bool
  deriving DecidableEq, Repr

/-- Model of `Streamer.UpdateHistory(reasonCode, earned, counter)`: create the entry if
absent, add to both counters; `WATCH_STREAK` also clears the missing flag. -/
def updateHistory (s : StreamerHistoryState) (reasonCode : String)
    (earned counter : ℤ) : StreamerHistoryState :=
  let entry := (s.history.lookup reasonCode).getD { counter := 0, amount := 0 }
  let entry' : HistoryEntry :=
    { counter := entry.counter + counter, amount := entry.amount + earned }
  let history' :=
    (s.history.filter (fun p => p.1 != reasonCode)) ++ [(reasonCode, entry')]
  { history := history'
    watchStreakMissing :=
      if reasonCode = "WATCH_STREAK" then false else s.watchStreakMissing }

/-- The miner state the prediction-result handler operates on: the live
events map (`eventsPredictions`), the one-shot bet timer map keyed by event
id (`pendingTimers`), and the streamer (optional, as in Go where the
streamer pointer may be nil). -/
structure MinerPredState where
  eventsPredictions : List (String × EventPrediction)
  pendingTimers : List String
  streamer : Option StreamerHistoryState
  deriving DecidableEq, Repr

/-- Model of `Miner.handlePredictionResult`: early-returns when the bet was never
confirmed or the message has no `result` object; otherwise parses the
result, stops and removes any pending timer for the event, updates the
streamer history, and deletes the event from the live map.  Returns the new
state together with the list of timers it stopped (`t.Stop()` calls). -/
def handlePredictionResult (st : MinerPredState) (event : EventPrediction)
    (result : Option (String × ℤ)) : MinerPredState × List String :=
  if event.betConfirmed = false then (st, [])
  else
    match result with
    | none => (st, [])
    | some (resultType, pointsWon) =>
      let pr := event.parseResult resultType pointsWon
      let points := pr.2
      let stopped :=
        if event.eventID ∈ st.pendingTimers then [event.eventID] else []
      let timers' := st.pendingTimers.filter (fun t => t != event.eventID)
      let streamer' :=
        match st.streamer with
        | none => none
        | some s =>
          let s1 := updateHistory s "PREDICTION" points.gained 1
          let s2 :=
            if resultType = "REFUND" then
              updateHistory s1 "REFUND" (-points.placed) (-1)
            else if resultType = "WIN" then
              updateHistory s1 "PREDICTION" (-points.won) (-1)
            else s1
          some s2
      let events' :=
        st.eventsPredictions.filter (fun p => p.1 != event.eventID)
      ({ eventsPredictions := events'
         pendingTimers := timers'
         streamer := streamer' }, stopped)

/-- Model of `Miner.handlePredictionsUser` for a `prediction-result` /
`prediction-made` message: look the event id up in the live map (dropping
the message when absent) and dispatch. -/
def handlePredictionsUser (st : MinerPredState) (msgType : String)
    (eventID : String) (result : Option (String × ℤ)) :
    MinerPredState × List String :=
  match st.eventsPredictions.lookup eventID with
  | none => (st, [])
  | some event =>
    if msgType = "prediction-result" then
      handlePredictionResult st event result
    else if msgType = "prediction-made" then
      ({ st with
         eventsPredictions := st.eventsPredictions.map fun p =>
           if p.1 = eventID then (p.1, { p.2 with betConfirmed := true })
           else p }, [])
    else (st, [])

/-! ## The GQL circuit breaker (source file `part_013`, package `gql`:
`circuitBreaker`, `Client.doHTTPRequest`). -/

/-- Model of `gql.circuitBreaker`: consecutive-failure counter and cooldown deadline.
Times are seconds as `ℚ`; the zero `time.Time` is modelled as 0 and all
request times are taken nonnegative. -/
structure CircuitBreaker where
  consecutiveFails : ℕ
  lastFailure : ℚ
  cooldownUntil : ℚ
  deriving DecidableEq, Repr

/-- The freshly constructed breaker (`&circuitBreaker\x7b\x7d`). -/
def CircuitBreaker.initial : CircuitBreaker :=
  { consecutiveFails := 0, lastFailure := 0, cooldownUntil := 0 }

/-- Model of `circuitBreaker.recordSuccess`: reset the consecutive-failure count. -/
def CircuitBreaker.recordSuccess (cb : CircuitBreaker) : CircuitBreaker :=
  { cb with consecutiveFails := 0 }

/-- Model of `circuitBreaker.recordFailure` at time `now`: increment the counter and,
from the 10th consecutive failure on, set the cooldown deadline to
`now + (fails-9)*30s`, capped at 5 minutes.  Note this function's only call
site is the statement after the retry loop of `Client.doHTTPRequest`, which
is unreachable (see `gqlRequestStep`): the program never executes it. -/
def CircuitBreaker.recordFailure (cb : CircuitBreaker) (now : ℚ) : CircuitBreaker :=
  let fails := cb.consecutiveFails + 1
  let base : CircuitBreaker :=
    { cb with consecutiveFails := fails, lastFailure := now }
  if 10 ≤ fails then
    { base with cooldownUntil := now + min (((fails : ℚ) - 9) * 30) 300 }
  else base

/-- Model of `circuitBreaker.shouldSkip` at time `now`. -/
def CircuitBreaker.shouldSkip (cb : CircuitBreaker) (now : ℚ) : Bool :=
  decide (now < cb.cooldownUntil)

/-- How one call of `Client.doHTTPRequest` ends, as far as the breaker is
concerned: the whole retry chain succeeds, or the call fails (a transport or
read error or a retryable status with retries exhausted, a non-retryable
non-200 status, request building, or context cancellation).  All failing
paths `return` directly out of the loop, so none of them touches the
breaker. -/
inductive ReqResult where
  | success
  | failure
  deriving DecidableEq, Repr

/-- What the caller of `Client.doHTTPRequest` observes. -/
inductive GQLOutcome where
  | circuitOpen
  | ok
  | failed
  deriving DecidableEq, Repr

/-- Model of `Client.doHTTPRequest` at the circuit-breaker level: an open breaker
fails fast with `ErrCircuitOpen` before anything is attempted; a successful
chain calls `recordSuccess` and returns the body.  Every failing branch of
the loop body either `continue`s (guarded by `attempt < maxRetries`) or
`return`s, so on the final attempt (`attempt == maxRetries`) each of them
returns: the loop cannot fall through to the trailing
`c.breaker.recordFailure()` statement, which is unreachable for the
`maxRetries` values the client uses (1 and 3).  A failing request therefore
leaves the breaker unchanged. -/
def gqlRequestStep (cb : CircuitBreaker) (now : ℚ) (res : ReqResult) :
    CircuitBreaker × GQLOutcome :=
  if cb.shouldSkip now then (cb, .circuitOpen)
  else
    match res with
    | .success => (cb.recordSuccess, .ok)
    | .failure => (cb, .failed)

/-- A sequence of requests against the breaker. -/
def runRequests (cb : CircuitBreaker) (reqs : List (ℚ × ReqResult)) :
    CircuitBreaker :=
  reqs.foldl (fun c r => (gqlRequestStep c r.1 r.2).1) cb

/-! ## The `twitch` client's bet placement (package `twitch`, the
`Client.MakePrediction` part of the `connection.go` source bundle). -/

/-- The observable effect of one `twitch.Client.MakePrediction` call: the
updated event, whether the GQL `MakePrediction` operation was issued, and
the returned error (if any). -/
structure MakePredictionResult where
  event : EventPrediction
  gqlCalled : Bool
  error : Option String
  deriving DecidableEq, Repr

/-- Model of `twitch.Client.MakePrediction`: calculate the decision (mutating the
event's bet), bail out with an error when the event is no longer ACTIVE,
silently skip when the filter condition says so or the amount is below 10,
otherwise issue the GQL call (whose success is the `gqlOk` parameter) and
set `BetPlaced` on success. -/
def makePrediction (event : EventPrediction) (balance stealthReduction : ℤ)
    (gqlOk : Bool) : MakePredictionResult :=
  let bet1 := event.bet.calculateBet balance stealthReduction
  let decision := bet1.decision
  let event1 := { event with bet := bet1 }
  if event.status ≠ "ACTIVE" then
    { event := event1, gqlCalled := false
      error := some ("event " ++ event.eventID ++ " is not active") }
  else if (bet1.skip).1 then
    { event := event1, gqlCalled := false, error := none }
  else if decision.amount < 10 then
    { event := event1, gqlCalled := false, error := none }
  else if gqlOk then
    { event := { event1 with betPlaced := true }, gqlCalled := true
      error := none }
  else
    { event := event1, gqlCalled := true
      error := some "placing prediction failed" }

/-! ## The PubSub pool's subscribe policy (source file
`src/internal/pubsub/pool.go`: `Pool.subscribeSingle`;
`src/internal/pubsub/connection.go`: `Connection.Subscribe`,
`Connection.HasCapacity`).  A connection is modelled by its topic list
(topics by their canonical string). -/

/-- Model of `constants.MaxTopicsPerConn`. -/
def MaxTopicsPerConn : ℕ := 50

/-- Model of `constants.MaxPubSubConns`. -/
def MaxPubSubConns : ℕ := 10

/-- Model of `Connection.Subscribe` for a single topic: skip if already held,
otherwise append and LISTEN. -/
def connSubscribe (conn : List String) (topic : String) : List String :=
  if topic ∈ conn then conn else conn ++ [topic]

/-- The `for _, conn := range p.conns` loop of `Pool.subscribeSingle`:
place the topic in the first connection with capacity, if any. -/
def placeFirst (conns : List (List String)) (topic : String) :
    Option (List (List String)) :=
  match conns with
  | [] => none
  | c :: rest =>
    if c.length < MaxTopicsPerConn then some (connSubscribe c topic :: rest)
    else
      match placeFirst rest topic with
      | some rest' => some (c :: rest')
      | none => none

/-- Model of `Pool.subscribeSingle`: first connection with capacity wins; otherwise a
new connection is dialled (success modelled by `dialOk`) unless the pool
already holds `MaxPubSubConns` connections, which is a capacity error. -/
def subscribeSingle (conns : List (List String)) (topic : String)
    (dialOk : Bool) : Except String (List (List String)) :=
  match placeFirst conns topic with
  | some conns' => .ok conns'
  | none =>
    if MaxPubSubConns ≤ conns.length then
      .error "maximum number of PubSub connections reached"
    else if dialOk then .ok (conns ++ [connSubscribe [] topic])
    else .error "creating new PubSub connection failed"

/-! ## The watch-selection scheduler (source file `part_010`, package
`twitch`: `SelectStreamersToWatch`) together with the streamer predicates it
uses (source file `part_020`, package `model`) and `model.Priority`
(source file `part_024`). -/

/-- Model of `model.Priority`. -/
inductive Priority where
  | order
  | streak
  | drops
  | subscribed
  | pointsAscending
  | pointsDescending
  deriving DecidableEq, Repr

/-- Model of `constants.MaxWatchStreams`. -/
def MaxWatchStreams : ℤ := 2

/-- The slice of `model.StreamerSettings` used by the scheduler. -/
structure StreamerSettings where
  watchStreak : Bool
  claimDrops : Bool
  deriving DecidableEq, Repr

/-- The slice of `model.Stream` used by the scheduler. -/
structure StreamState where
  watchStreakMissing : Bool
  minuteWatched : ℚ
  campaignIDs : List String
  deriving DecidableEq, Repr

/-- The slice of `model.Streamer` used by the scheduler.  `none` timestamps
model the zero `time.Time` (`IsZero`). -/
structure Streamer where
  isOnline : Bool
  onlineAt : Option ℚ
  offlineAt : Option ℚ
  settings : Option StreamerSettings
  stream : StreamState
  activeMultipliers : List ℚ
  channelPoints : ℤ
  deriving DecidableEq, Repr

/-- Dummy streamer totalising out-of-range index reads. -/
def dStreamer : Streamer :=
  { isOnline := false, onlineAt := none, offlineAt := none, settings := none,
    stream := { watchStreakMissing := false, minuteWatched := 0, campaignIDs := [] },
    activeMultipliers := [], channelPoints := 0 }

/-- Model of `Streamer.DropsCondition`: settings present, claim_drops enabled, online,
and at least one campaign id. -/
def Streamer.dropsCondition (s : Streamer) : Bool :=
  match s.settings with
  | none => false
  | some st => st.claimDrops && s.isOnline && decide (0 < s.stream.campaignIDs.length)

/-- Model of `Streamer.HasPointsMultiplier`. -/
def Streamer.hasPointsMultiplier (s : Streamer) : Bool :=
  decide (0 < s.activeMultipliers.length)

/-- Model of `Streamer.TotalPointsMultiplier`. -/
def Streamer.totalPointsMultiplier (s : Streamer) : ℚ :=
  s.activeMultipliers.sum

/-- Insertion sort by a strict-less comparator, standing in for Go's
(unstable) `sort.Slice`; any sort agreeing with the comparator is a valid
model of the unspecified permutation Go produces. -/
def sortByLt {α : Type} (lt : α → α → Bool) : List α → List α
  | [] => []
  | x :: xs => insertLt lt x (sortByLt lt xs)
where
  insertLt (lt : α → α → Bool) (x : α) : List α → List α
    | [] => [x]
    | y :: ys => if lt x y then x :: y :: ys else y :: insertLt lt x ys

/-- The shared shape of the per-priority fill loops: walk the candidate
indices, skip those already watched, add the ones satisfying `pred`,
decrement `remaining` and stop once it reaches 0. -/
def fillLoop (pred : ℕ → Bool) (cands : List ℕ) (watching : List ℕ)
    (remaining : ℤ) : List ℕ :=
  match cands with
  | [] => watching
  | i :: rest =>
    if i ∈ watching then fillLoop pred rest watching remaining
    else if pred i then
      let w := watching ++ [i]
      if remaining - 1 ≤ 0 then w else fillLoop pred rest w (remaining - 1)
    else fillLoop pred rest watching remaining

/-- The SUBSCRIBED fill loop: candidates were pre-filtered, so no membership
check happens while adding. -/
def fillLoopNoCheck (cands : List ℕ) (watching : List ℕ) (remaining : ℤ) :
    List ℕ :=
  match cands with
  | [] => watching
  | i :: rest =>
    let w := watching ++ [i]
    if remaining - 1 ≤ 0 then w else fillLoopNoCheck rest w (remaining - 1)

/-- One arm of the priority `switch` in `SelectStreamersToWatch`. -/
def applyPriority (streamers : List Streamer) (onlineIndices : List ℕ)
    (p : Priority) (now : ℚ) (watching : List ℕ) (remaining : ℤ) : List ℕ :=
  match p with
  | .order => fillLoop (fun _ => true) onlineIndices watching remaining
  | .streak =>
    fillLoop
      (fun i =>
        let s := streamers.getD i dStreamer
        (match s.settings with
         | none => false
         | some st => st.watchStreak) &&
        s.stream.watchStreakMissing &&
        (match s.offlineAt with
         | none => true
         | some t => decide (30 < (now - t) / 60)) &&
        decide (s.stream.minuteWatched < 7))
      onlineIndices watching remaining
  | .drops =>
    fillLoop (fun i => (streamers.getD i dStreamer).dropsCondition)
      onlineIndices watching remaining
  | .subscribed =>
    let withMultiplier :=
      (onlineIndices.filter fun i =>
        !(decide (i ∈ watching)) &&
        (streamers.getD i dStreamer).hasPointsMultiplier).map
        (fun i => (i, (streamers.getD i dStreamer).totalPointsMultiplier))
    let sorted := sortByLt (fun a b => decide (b.2 < a.2)) withMultiplier
    fillLoopNoCheck (sorted.map (·.1)) watching remaining
  | .pointsAscending =>
    let items := onlineIndices.map fun i =>
      (i, (streamers.getD i dStreamer).channelPoints)
    let sorted := sortByLt (fun a b => decide (a.2 < b.2)) items
    fillLoop (fun _ => true) (sorted.map (·.1)) watching remaining
  | .pointsDescending =>
    let items := onlineIndices.map fun i =>
      (i, (streamers.getD i dStreamer).channelPoints)
    let sorted := sortByLt (fun a b => decide (b.2 < a.2)) items
    fillLoop (fun _ => true) (sorted.map (·.1)) watching remaining

/-- The `for _, priority := range priorities` loop: stop as soon as the
selection is full, else let the next priority fill the remaining slots. -/
def prioLoop (streamers : List Streamer) (onlineIndices : List ℕ)
    (priorities : List Priority) (maxW : ℤ) (now : ℚ) (watching : List ℕ) :
    List ℕ :=
  match priorities with
  | [] => watching
  | p :: rest =>
    if maxW ≤ (watching.length : ℤ) then watching
    else
      let remaining := maxW - (watching.length : ℤ)
      let watching' := applyPriority streamers onlineIndices p now watching remaining
      prioLoop streamers onlineIndices rest maxW now watching'

/-- The body of `twitch.SelectStreamersToWatch` once the `maxWatch`
parameter has been defaulted: eligible = online for more than 30 s (or with
a zero online-at), priorities fill up to `maxW` slots, truncate. -/
def selectCore (streamers : List Streamer) (priorities : List Priority)
    (maxW : ℤ) (now : ℚ) : List Streamer :=
  let onlineIndices := (List.range streamers.length).filter fun i =>
    let s := streamers.getD i dStreamer
    s.isOnline &&
    (match s.onlineAt with
     | none => true
     | some t => decide (30 < now - t))
  if onlineIndices.isEmpty then []
  else
    let watching := prioLoop streamers onlineIndices priorities maxW now []
    let result := watching.map fun i => streamers.getD i dStreamer
    if maxW < (result.length : ℤ) then result.take maxW.toNat else result

/-- Model of `twitch.SelectStreamersToWatch(streamers, priorities, maxWatch)` at time
`now`: `maxWatch` defaults to `MaxWatchStreams` when nonpositive. -/
def SelectStreamersToWatch (streamers : List Streamer)
    (priorities : List Priority) (maxWatch : ℤ) (now : ℚ) : List Streamer :=
  selectCore streamers priorities
    (if maxWatch ≤ 0 then MaxWatchStreams else maxWatch) now

/-! ## Auxiliary definitions and concrete sample data used by the
verification below. -/

/-- Model of `model.DefaultBetSettings`. -/
def DefaultBetSettings : BetSettings :=
  { strategy := .smart, percentage := 5, percentageGap := 20, maxPoints := 50000,
    minimumPoints := 0, stealthMode := false, filterCondition := none,
    delay := 6, delayMode := .fromEnd }

/-- The fixed-index strategy `NUMBER_k` for `k = 1..8`. -/
def numberStrategy : ℕ → Strategy
  | 1 => .number1
  | 2 => .number2
  | 3 => .number3
  | 4 => .number4
  | 5 => .number5
  | 6 => .number6
  | 7 => .number7
  | 8 => .number8
  | _ => .smart

/-- Sample outcome A (the spec's end-to-end scenario 1). -/
def wOutcomeA : Outcome :=
  { dOutcome with id := "A", totalUsers := 100, totalPoints := 10000 }

/-- Sample outcome B (the spec's end-to-end scenario 1). -/
def wOutcomeB : Outcome :=
  { dOutcome with id := "B", totalUsers := 50, totalPoints := 5000 }

/-- A bet whose filter condition uses the virtual key `decision_users`, with
a chosen outcome (index 0, 10 users) whose user count differs from the
all-outcome sum (15). -/
def cexSkipBet : Bet :=
  { outcomes := [ { dOutcome with id := "a", totalUsers := 10, totalPoints := 100 },
                  { dOutcome with id := "b", totalUsers := 5, totalPoints := 50 } ],
    decision := { choice := 0, amount := 0, outcomeID := "a" },
    totalUsers := 15, totalPoints := 150,
    settings := { DefaultBetSettings with
      filterCondition := some ({ by_ := .decisionUsers, whereCond := .gt, value := 12 }) } }

/-- A single-outcome stealth-mode bet whose leader holds 300 points. -/
def stealthBet : Bet :=
  { outcomes := [ { dOutcome with id := "a", topPoints := 300 } ],
    decision := { choice := -1, amount := 0, outcomeID := "" },
    totalUsers := 0, totalPoints := 0,
    settings := { DefaultBetSettings with stealthMode := true, strategy := .number1 } }

/-- A two-outcome bet with the fixed-index strategy `NUMBER_2`. -/
def numberBet : Bet :=
  { outcomes := [wOutcomeA, wOutcomeB],
    decision := { choice := -1, amount := 0, outcomeID := "" },
    totalUsers := 0, totalPoints := 0,
    settings := { DefaultBetSettings with strategy := .number2 } }

/-- An ACTIVE sample event whose bet decision amounts to 5 points at a
balance of 100 (strategy NUMBER_1 over the sample outcomes). -/
def wEvent : EventPrediction :=
  { eventID := "ev1", title := "T", createdAt := 0,
    predictionWindowSeconds := 60, status := "ACTIVE",
    result := { resultString := "", type_ := "", gained := 0 },
    betConfirmed := false, betPlaced := false,
    bet := NewBet [wOutcomeA, wOutcomeB]
      { DefaultBetSettings with strategy := .number1 } }

/-- A live event whose bet was never confirmed (no user-channel echo). -/
def cexResultEvent : EventPrediction :=
  { wEvent with eventID := "e1", status := "ACTIVE", betConfirmed := false }

/-- Miner state holding the unconfirmed event and a pending timer for it. -/
def cexResultState : MinerPredState :=
  { eventsPredictions := [("e1", cexResultEvent)],
    pendingTimers := ["e1"],
    streamer := some { history := [], watchStreakMissing := true } }

/-- Miner state holding the same event, but with its bet confirmed. -/
def okResultState : MinerPredState :=
  { cexResultState with
    eventsPredictions := [("e1", { cexResultEvent with betConfirmed := true })] }

/-- A streamer for the watch-selection scenario: online (zero online-at),
streak-condition never satisfied (`watchStreakMissing = false`), and
drops-eligible exactly when `drops` is set. -/
def scenarioStreamer (drops : Bool) : Streamer :=
  { isOnline := true, onlineAt := none, offlineAt := none,
    settings := some { watchStreak := true, claimDrops := drops },
    stream := { watchStreakMissing := false, minuteWatched := 0,
                campaignIDs := if drops then ["c"] else [] },
    activeMultipliers := [], channelPoints := 0 }

/-- Ten eligible online streamers, five of them drops-eligible. -/
def scenarioStreamers : List Streamer :=
  [scenarioStreamer false, scenarioStreamer false, scenarioStreamer true,
   scenarioStreamer false, scenarioStreamer true, scenarioStreamer false,
   scenarioStreamer true, scenarioStreamer false, scenarioStreamer true,
   scenarioStreamer true]

/-- Sample updates for `Bet.UpdateOutcomes` (the spec's scenario data). -/
def wUpdates : List Outcome :=
  [ { dOutcome with totalUsers := 100, totalPoints := 10000, topPoints := 500 },
    { dOutcome with totalUsers := 50, totalPoints := 5000, topPoints := 300 } ]

/-- A fresh bet over two blank outcomes, for exercising `UpdateOutcomes`. -/
def wUpdateBet : Bet :=
  NewBet [ { dOutcome with id := "A" }, { dOutcome with id := "B" } ]
    DefaultBetSettings

/-- Ten consecutive failed requests at one-second intervals. -/
def tenFailures : List (ℚ × ReqResult) :=
  [(1, .failure), (2, .failure), (3, .failure),
   (4, .failure), (5, .failure), (6, .failure),
   (7, .failure), (8, .failure), (9, .failure),
   (10, .failure)]

/-! ## Shared helper lemmas. -/

/-- When the chosen index is in range, `Bet.Calculate` takes its main
branch. -/
theorem Bet.calculate_inRange (b : Bet) (bal red : ℤ)
    (h1 : 0 ≤ b.chooseIndex) (h2 : b.chooseIndex < (b.outcomes.length : ℤ)) :
    b.calculate bal red =
      { choice := b.chooseIndex
        amount := b.betAmount bal red (b.outcomes.getD b.chooseIndex.toNat dOutcome)
        outcomeID := (b.outcomes.getD b.chooseIndex.toNat dOutcome).id } := by
  unfold Bet.calculate
  rw [if_pos ⟨h1, h2⟩]

/-- Summing a function of `getD` over the index range is summing over the
list. -/
theorem sum_range_map_getD {α : Type} (l : List α) (d : α) (f : α → ℚ) :
    ((List.range l.length).map fun i => f (l.getD i d)).sum = (l.map f).sum := by
  induction l with
  | nil => simp
  | cons x xs ih =>
    simp only [List.length_cons, List.range_succ_eq_map, List.map_cons,
      List.map_map, List.sum_cons, Function.comp_def, List.getD_cons_zero,
      List.getD_cons_succ]
    rw [← ih]

/-- Looking a key up after filtering it out yields nothing. -/
theorem lookup_filter_bne {α : Type} (l : List (String × α)) (k : String) :
    ((l.filter fun p => p.1 != k).lookup k) = none := by
  induction l with
  | nil => rfl
  | cons x xs ih =>
    obtain ⟨a, b⟩ := x
    rw [List.filter_cons]
    by_cases h : a = k
    · simp only [h, bne_self_eq_false, if_false]
      exact ih
    · have hb : ((a, b).1 != k) = true := by simpa using h
      rw [if_pos hb]
      have hk : (k == a) = false := by
        simpa using fun hh => h hh.symm
      simp [List.lookup, hk, ih]

/-- A key is never a member of the list it was filtered out of. -/
theorem not_mem_filter_bne (l : List String) (k : String) :
    k ∉ l.filter fun t => t != k := by
  intro hmem
  rw [List.mem_filter] at hmem
  simp at hmem

/-- Model of `placeFirst` finds nothing among full connections. -/
theorem placeFirst_none (conns : List (List String)) (topic : String)
    (hfull : ∀ c ∈ conns, MaxTopicsPerConn ≤ c.length) :
    placeFirst conns topic = none := by
  induction conns with
  | nil => rfl
  | cons c rest ih =>
    unfold placeFirst
    rw [if_neg (by have := hfull c (by simp); omega)]
    rw [ih fun c' hc' => hfull c' (by simp [hc'])]

/-- Model of `placeFirst` places the topic in the first connection with capacity. -/
theorem placeFirst_first (pre : List (List String)) (c : List String)
    (post : List (List String)) (topic : String)
    (hpre : ∀ c' ∈ pre, MaxTopicsPerConn ≤ c'.length)
    (hc : c.length < MaxTopicsPerConn) :
    placeFirst (pre ++ c :: post) topic =
      some (pre ++ connSubscribe c topic :: post) := by
  induction pre with
  | nil =>
    simp only [List.nil_append]
    unfold placeFirst
    rw [if_pos hc]
  | cons p ps ih =>
    simp only [List.cons_append]
    unfold placeFirst
    rw [if_neg (by have := hpre p (by simp); omega)]
    rw [ih fun c' hc' => hpre c' (by simp [hc'])]

/-- Truncating a list to a nonnegative integer bound leaves at most that
many elements. -/
theorem length_truncate_le {α : Type} (l : List α) (m : ℤ) (hm : 0 ≤ m) :
    (((if m < (l.length : ℤ) then l.take m.toNat else l).length : ℤ)) ≤ m := by
  split
  · rename_i hlt
    rw [List.length_take]
    omega
  · rename_i hge
    omega

/-- The sample event's computed bet amount at balance 100: `5` points
(100 × 5% truncated). -/
theorem wEvent_amount : (wEvent.bet.calculate 100 1).amount = 5 := by
  rw [Bet.calculate_inRange wEvent.bet 100 1 (by decide) (by decide)]
  show wEvent.bet.betAmount 100 1
    (wEvent.bet.outcomes.getD wEvent.bet.chooseIndex.toNat dOutcome) = 5
  unfold Bet.betAmount
  rw [if_neg (by decide)]
  norm_num [Bet.cappedAmount, goTrunc, wEvent, NewBet, DefaultBetSettings]

/-- Model of `math.Round` moves a value by at most one half. -/
theorem goRound_abs_le (y : ℚ) : |(goRound y : ℚ) - y| ≤ 1/2 := by
  have key : ∀ z : ℚ, |(⌊z + 1/2⌋ : ℚ) - z| ≤ 1/2 := by
    intro z
    rw [abs_le]
    constructor
    · have := Int.lt_floor_add_one (z + 1/2)
      linarith
    · have := Int.floor_le (z + 1/2)
      linarith
  unfold goRound
  split
  · exact key y
  · push_cast
    rw [show -(⌊-y + 1/2⌋ : ℚ) - y = -((⌊-y + 1/2⌋ : ℚ) - -y) by ring, abs_neg]
    exact key (-y)

/-- Rounding to two decimal places moves a value by at most `1/200`. -/
theorem floatRound_sub_abs_le (x : ℚ) : |floatRound x 2 - x| ≤ 1/200 := by
  unfold floatRound
  have h := goRound_abs_le (x * 10 ^ 2)
  rw [show (goRound (x * 10 ^ 2) : ℚ) / 10 ^ 2 - x =
      ((goRound (x * 10 ^ 2) : ℚ) - x * 10 ^ 2) / 10 ^ 2 by ring]
  rw [abs_div, show |(10 : ℚ) ^ 2| = 100 by norm_num]
  linarith

/-- Summing two pointwise-close functions over a list keeps the sums within
`length × c`. -/
theorem sum_map_sub_abs_le {α : Type} (l : List α) (f g : α → ℚ) (c : ℚ)
    (h : ∀ a ∈ l, |f a - g a| ≤ c) :
    |(l.map f).sum - (l.map g).sum| ≤ l.length * c := by
  induction l with
  | nil => simp
  | cons x xs ih =>
    simp only [List.map_cons, List.sum_cons, List.length_cons]
    have h1 := h x (by simp)
    have h2 := ih fun a ha => h a (by simp [ha])
    have habs : |f x + (xs.map f).sum - (g x + (xs.map g).sum)| ≤
        |f x - g x| + |(xs.map f).sum - (xs.map g).sum| := by
      rw [show f x + (xs.map f).sum - (g x + (xs.map g).sum) =
          (f x - g x) + ((xs.map f).sum - (xs.map g).sum) by ring]
      exact abs_add _ _
    push_cast
    calc |f x + (xs.map f).sum - (g x + (xs.map g).sum)| ≤
        |f x - g x| + |(xs.map f).sum - (xs.map g).sum| := habs
      _ ≤ c + xs.length * c := add_le_add h1 h2
      _ = ((xs.length : ℚ) + 1) * c := by ring

/-- Casting the integer sum of per-outcome user counts into `ℚ`. -/
theorem sum_map_cast_totalUsers (l : List Outcome) :
    (l.map fun o => (o.totalUsers : ℚ)).sum = (((l.map (·.totalUsers)).sum : ℤ) : ℚ) := by
  induction l with
  | nil => simp
  | cons x xs ih => simp [ih]

/-- Pulling the common `100 · / U` out of the percentage sum. -/
theorem sum_pct_mul_div (l : List Outcome) (U : ℚ) :
    (l.map fun o => 100 * (o.totalUsers : ℚ) / U).sum =
      100 * (l.map fun o => (o.totalUsers : ℚ)).sum / U := by
  induction l with
  | nil => simp
  | cons x xs ih =>
    simp only [List.map_cons, List.sum_cons, ih]
    ring

/-- The exact (pre-rounding) user percentages sum to 100. -/
theorem sum_pct_exact (l : List Outcome) (U : ℚ) (hU : U ≠ 0)
    (hsum : (l.map fun o => (o.totalUsers : ℚ)).sum = U) :
    (l.map fun o => 100 * (o.totalUsers : ℚ) / U).sum = 100 := by
  rw [sum_pct_mul_div, hsum]
  field_simp

/-- Model of `UpdateOutcomes` stores the sum of updated user counts as the total. -/
theorem updateOutcomes_totalUsers (b : Bet) (updates : List Outcome) :
    (b.updateOutcomes updates).totalUsers =
      ((Bet.updateOutcomes.copyTotals b.outcomes updates).map (·.totalUsers)).sum := rfl

/-- Model of `UpdateOutcomes` stores the sum of updated point counts as the total. -/
theorem updateOutcomes_totalPoints (b : Bet) (updates : List Outcome) :
    (b.updateOutcomes updates).totalPoints =
      ((Bet.updateOutcomes.copyTotals b.outcomes updates).map (·.totalPoints)).sum := rfl

/-- With positive totals, `UpdateOutcomes` maps the derivation over the
copied outcome list. -/
theorem updateOutcomes_outcomes_pos (b : Bet) (updates : List Outcome)
    (hU : 0 < (b.updateOutcomes updates).totalUsers)
    (hP : 0 < (b.updateOutcomes updates).totalPoints) :
    (b.updateOutcomes updates).outcomes =
      (Bet.updateOutcomes.copyTotals b.outcomes updates).map
        (Bet.updateOutcomes.deriveStats
          ((Bet.updateOutcomes.copyTotals b.outcomes updates).map (·.totalUsers)).sum
          ((Bet.updateOutcomes.copyTotals b.outcomes updates).map (·.totalPoints)).sum) := by
  have hU' : 0 <
      ((Bet.updateOutcomes.copyTotals b.outcomes updates).map (·.totalUsers)).sum := hU
  have hP' : 0 <
      ((Bet.updateOutcomes.copyTotals b.outcomes updates).map (·.totalPoints)).sum := hP
  simp only [Bet.updateOutcomes]
  rw [if_pos ⟨hU', hP'⟩]

/-- Field-level description of the `UpdateOutcomes` derivation body. -/
theorem deriveStats_spec (U P : ℤ) (a : Outcome) :
    (Bet.updateOutcomes.deriveStats U P a).totalUsers = a.totalUsers ∧
    (Bet.updateOutcomes.deriveStats U P a).totalPoints = a.totalPoints ∧
    (Bet.updateOutcomes.deriveStats U P a).percentageUsers =
      floatRound (100 * (a.totalUsers : ℚ) / (U : ℚ)) 2 ∧
    (Bet.updateOutcomes.deriveStats U P a).odds =
      (if a.totalPoints = 0 then 0
       else floatRound ((P : ℚ) / (a.totalPoints : ℚ)) 2) ∧
    (Bet.updateOutcomes.deriveStats U P a).oddsPercentage =
      (if (Bet.updateOutcomes.deriveStats U P a).odds = 0 then 0
       else floatRound (100 / (Bet.updateOutcomes.deriveStats U P a).odds) 2) :=
  ⟨rfl, rfl, rfl, rfl, rfl⟩

/-- The second component of `Bet.Skip` is the compared value. -/
theorem Bet.skip_snd (b : Bet) (fc : FilterCondition)
    (hfc : b.settings.filterCondition = some fc) :
    (b.skip).2 = b.comparedValue fc := by
  have key : ∀ (cv : ℚ) (p : Bool), (if p then (false, cv) else (true, cv)).2 = cv := by
    intro cv p
    cases p <;> rfl
  unfold Bet.skip
  rw [hfc]
  exact key _ _

/-! ## Claims. -/

/-- Claim C5: For every window `w ≥ 0` and delay `d`: `GetPredictionWindow` in
mode FROM_START with `d ≥ w` returns the full window `w`; in mode FROM_END
with `d ≥ w` returns 0; and in mode PERCENTAGE with `d = 1.0` returns the
full window `w`. -/
theorem getPredictionWindow_boundary (settings : BetSettings) (w : ℚ)
    (hw : 0 ≤ w) :
    (settings.delayMode = .fromStart → w ≤ settings.delay →
        GetPredictionWindow settings w = w) ∧
    (settings.delayMode = .fromEnd → w ≤ settings.delay →
        GetPredictionWindow settings w = 0) ∧
    (settings.delayMode = .percentage → settings.delay = 1 →
        GetPredictionWindow settings w = w) := by
  refine ⟨fun h1 h2 => ?_, fun h1 h2 => ?_, fun h1 h2 => ?_⟩ <;>
    simp only [GetPredictionWindow, h1]
  · exact min_eq_right h2
  · exact max_eq_right (by linarith)
  · rw [h2, mul_one]

/-- Witness for C5 at `w = 60`, FROM_START settings with delay 100. -/
theorem getPredictionWindow_boundary_witness :
    (0 : ℚ) ≤ 60 ∧
    ((({ DefaultBetSettings with delayMode := .fromStart, delay := 100 } :
          BetSettings).delayMode = .fromStart → (60 : ℚ) ≤
          ({ DefaultBetSettings with delayMode := .fromStart, delay := 100 } :
            BetSettings).delay →
        GetPredictionWindow
          { DefaultBetSettings with delayMode := .fromStart, delay := 100 } 60 = 60) ∧
     (({ DefaultBetSettings with delayMode := .fromStart, delay := 100 } :
          BetSettings).delayMode = .fromEnd → (60 : ℚ) ≤
          ({ DefaultBetSettings with delayMode := .fromStart, delay := 100 } :
            BetSettings).delay →
        GetPredictionWindow
          { DefaultBetSettings with delayMode := .fromStart, delay := 100 } 60 = 0) ∧
     (({ DefaultBetSettings with delayMode := .fromStart, delay := 100 } :
          BetSettings).delayMode = .percentage →
          ({ DefaultBetSettings with delayMode := .fromStart, delay := 100 } :
            BetSettings).delay = 1 →
        GetPredictionWindow
          { DefaultBetSettings with delayMode := .fromStart, delay := 100 } 60 = 60)) :=
  ⟨by norm_num,
   getPredictionWindow_boundary
     { DefaultBetSettings with delayMode := .fromStart, delay := 100 } 60
     (by norm_num)⟩

/-- Claim C10: For every Bet with a non-empty outcome list and a fixed-index
strategy `NUMBER_k` (`k = 1..8`): if the outcome list has at least `k`
outcomes, `Bet.Calculate` chooses outcome index `k−1`; otherwise it silently
falls back to outcome index 0 rather than skipping the bet, so the chosen
index is always in range. -/
theorem calculate_number_strategy (b : Bet) (bal red : ℤ) (k : ℕ)
    (hk1 : 1 ≤ k) (hk8 : k ≤ 8)
    (hs : b.settings.strategy = numberStrategy k)
    (hne : b.outcomes ≠ []) :
    (k ≤ b.outcomes.length → (b.calculate bal red).choice = (k : ℤ) - 1) ∧
    (b.outcomes.length < k → (b.calculate bal red).choice = 0) ∧
    0 ≤ (b.calculate bal red).choice ∧
    (b.calculate bal red).choice < (b.outcomes.length : ℤ) := by
  have hlen : 0 < b.outcomes.length := List.length_pos.mpr hne
  have hci : b.chooseIndex = ((b.returnNumberChoice (k - 1) : ℕ) : ℤ) := by
    interval_cases k <;>
      simp only [numberStrategy] at hs <;>
      simp [Bet.chooseIndex, hs]
  have hrnc : b.returnNumberChoice (k - 1) < b.outcomes.length := by
    unfold Bet.returnNumberChoice
    split
    · omega
    · exact hlen
  have h0 : 0 ≤ b.chooseIndex := by rw [hci]; exact Int.ofNat_nonneg _
  have h2 : b.chooseIndex < (b.outcomes.length : ℤ) := by
    rw [hci]; exact_mod_cast hrnc
  rw [Bet.calculate_inRange b bal red h0 h2]
  refine ⟨fun hk => ?_, fun hk => ?_, h0, h2⟩
  · have hv : b.returnNumberChoice (k - 1) = k - 1 := by
      unfold Bet.returnNumberChoice
      rw [if_pos (by omega)]
    show b.chooseIndex = (k : ℤ) - 1
    rw [hci, hv]
    omega
  · have hv : b.returnNumberChoice (k - 1) = 0 := by
      unfold Bet.returnNumberChoice
      rw [if_neg (by omega)]
    show b.chooseIndex = 0
    rw [hci, hv]
    rfl

/-- Witness for C10: `NUMBER_2` over a two-outcome bet picks index 1. -/
theorem calculate_number_strategy_witness :
    1 ≤ 2 ∧ 2 ≤ 8 ∧ numberBet.settings.strategy = numberStrategy 2 ∧
    numberBet.outcomes ≠ [] ∧
    ((2 ≤ numberBet.outcomes.length →
        (numberBet.calculate 10000 1).choice = (2 : ℤ) - 1) ∧
     (numberBet.outcomes.length < 2 →
        (numberBet.calculate 10000 1).choice = 0) ∧
     0 ≤ (numberBet.calculate 10000 1).choice ∧
     (numberBet.calculate 10000 1).choice < (numberBet.outcomes.length : ℤ)) :=
  ⟨by norm_num, by norm_num, by decide, by decide,
   calculate_number_strategy numberBet 10000 1 2 (by norm_num) (by norm_num)
     (by decide) (by decide)⟩

/-- Claim C4: For every outcome list, bet settings with stealth_mode enabled,
balance, and stealth reduction as drawn by the code (an integer ≥ 1): when
the chosen outcome has `top_points > 0`, `Bet.Calculate` never produces a
bet amount greater than or equal to that outcome's `top_points`. -/
theorem calculate_stealth_below_topPoints (b : Bet) (bal red : ℤ)
    (hst : b.settings.stealthMode = true) (hred : 1 ≤ red)
    (h0 : 0 ≤ b.chooseIndex) (h2 : b.chooseIndex < (b.outcomes.length : ℤ))
    (htop : 0 < (b.outcomes.getD b.chooseIndex.toNat dOutcome).topPoints) :
    (b.calculate bal red).amount <
      (b.outcomes.getD b.chooseIndex.toNat dOutcome).topPoints := by
  rw [Bet.calculate_inRange b bal red h0 h2]
  show b.betAmount bal red (b.outcomes.getD b.chooseIndex.toNat dOutcome) <
    (b.outcomes.getD b.chooseIndex.toNat dOutcome).topPoints
  unfold Bet.betAmount
  simp only [hst, true_and]
  by_cases hc :
      (b.outcomes.getD b.chooseIndex.toNat dOutcome).topPoints ≤
        b.cappedAmount bal
  · rw [if_pos ⟨hc, htop⟩]
    omega
  · rw [if_neg fun h => hc h.1]
    omega

/-- Witness for C4: stealth mode over `stealthBet` with balance 10000 and
reduction 1 yields 299 < 300. -/
theorem calculate_stealth_below_topPoints_witness :
    stealthBet.settings.stealthMode = true ∧ (1 : ℤ) ≤ 1 ∧
    0 ≤ stealthBet.chooseIndex ∧
    stealthBet.chooseIndex < (stealthBet.outcomes.length : ℤ) ∧
    0 < (stealthBet.outcomes.getD stealthBet.chooseIndex.toNat dOutcome).topPoints ∧
    (stealthBet.calculate 10000 1).amount <
      (stealthBet.outcomes.getD stealthBet.chooseIndex.toNat dOutcome).topPoints :=
  ⟨by decide, by norm_num, by decide, by decide, by decide,
   calculate_stealth_below_topPoints stealthBet 10000 1 (by decide) (by norm_num)
     (by decide) (by decide) (by decide)⟩

/-- Claim C1 counterexample: A bet filtering on the virtual key
`decision_users` with condition GT 12: the chosen outcome (index 0) has 10
users while the sum over all outcomes is 15.  The claim predicts a compared
value of 15, which passes GT 12 and hence no skip; `Bet.Skip` actually
compares the chosen outcome's 10 users and skips. -/
theorem skip_decisionUsers_counterexample :
    cexSkipBet.skip = (true, 10) ∧
    (cexSkipBet.outcomes.map (·.totalUsers)).sum = 15 ∧
    cexSkipBet.settings.filterCondition =
      some { by_ := .decisionUsers, whereCond := .gt, value := 12 } ∧
    (12 : ℚ) < 15 := by
  refine ⟨by decide, by decide, by decide, by norm_num⟩

/-- Claim C1 amended: For a filter condition on key `total_users`
(resp. `total_points`), `Bet.Skip` compares the filter value against the
sum of `total_users` (resp. `total_points`) over all outcomes; for the
virtual keys `decision_users`/`decision_points` it compares against the
CHOSEN outcome's `total_users`/`total_points`; and for every other outcome
key it compares against the value of the chosen outcome only. -/
theorem skip_comparedValue_by_key (b : Bet) (fc : FilterCondition)
    (hfc : b.settings.filterCondition = some fc) :
    (fc.by_ = .decisionUsers → (b.skip).2 =
        ((b.outcomes.getD b.decision.choice.toNat dOutcome).totalUsers : ℚ)) ∧
    (fc.by_ = .decisionPoints → (b.skip).2 =
        ((b.outcomes.getD b.decision.choice.toNat dOutcome).totalPoints : ℚ)) ∧
    (fc.by_ = .totalUsers → (b.skip).2 =
        (b.outcomes.map fun o => (o.totalUsers : ℚ)).sum) ∧
    (fc.by_ = .totalPoints → (b.skip).2 =
        (b.outcomes.map fun o => (o.totalPoints : ℚ)).sum) ∧
    (fc.by_ ≠ .decisionUsers → fc.by_ ≠ .decisionPoints →
     fc.by_ ≠ .totalUsers → fc.by_ ≠ .totalPoints →
        (b.skip).2 = b.outcomeValue b.decision.choice.toNat fc.by_) := by
  rw [Bet.skip_snd b fc hfc]
  refine ⟨fun hby => ?_, fun hby => ?_, fun hby => ?_, fun hby => ?_,
    fun h1 h2 h3 h4 => ?_⟩
  · simp [Bet.comparedValue, hby, Bet.outcomeValue]
  · simp [Bet.comparedValue, hby, Bet.outcomeValue]
  · simp only [Bet.comparedValue, hby]
    show ((List.range b.outcomes.length).map
      fun i => b.outcomeValue i OutcomeKey.totalUsers).sum = _
    exact sum_range_map_getD b.outcomes dOutcome fun o => (o.totalUsers : ℚ)
  · simp only [Bet.comparedValue, hby]
    show ((List.range b.outcomes.length).map
      fun i => b.outcomeValue i OutcomeKey.totalPoints).sum = _
    exact sum_range_map_getD b.outcomes dOutcome fun o => (o.totalPoints : ℚ)
  · cases hk : fc.by_ <;> simp_all [Bet.comparedValue]

/-- Witness for C1 (amended) at `cexSkipBet` and its filter condition. -/
theorem skip_comparedValue_by_key_witness :
    cexSkipBet.settings.filterCondition =
      some { by_ := .decisionUsers, whereCond := .gt, value := 12 } ∧
    ((({ by_ := .decisionUsers, whereCond := .gt, value := 12 } :
          FilterCondition).by_ = .decisionUsers → (cexSkipBet.skip).2 =
        ((cexSkipBet.outcomes.getD cexSkipBet.decision.choice.toNat
            dOutcome).totalUsers : ℚ)) ∧
     (({ by_ := .decisionUsers, whereCond := .gt, value := 12 } :
          FilterCondition).by_ = .decisionPoints → (cexSkipBet.skip).2 =
        ((cexSkipBet.outcomes.getD cexSkipBet.decision.choice.toNat
            dOutcome).totalPoints : ℚ)) ∧
     (({ by_ := .decisionUsers, whereCond := .gt, value := 12 } :
          FilterCondition).by_ = .totalUsers → (cexSkipBet.skip).2 =
        (cexSkipBet.outcomes.map fun o => (o.totalUsers : ℚ)).sum) ∧
     (({ by_ := .decisionUsers, whereCond := .gt, value := 12 } :
          FilterCondition).by_ = .totalPoints → (cexSkipBet.skip).2 =
        (cexSkipBet.outcomes.map fun o => (o.totalPoints : ℚ)).sum) ∧
     (({ by_ := .decisionUsers, whereCond := .gt, value := 12 } :
          FilterCondition).by_ ≠ .decisionUsers →
      ({ by_ := .decisionUsers, whereCond := .gt, value := 12 } :
          FilterCondition).by_ ≠ .decisionPoints →
      ({ by_ := .decisionUsers, whereCond := .gt, value := 12 } :
          FilterCondition).by_ ≠ .totalUsers →
      ({ by_ := .decisionUsers, whereCond := .gt, value := 12 } :
          FilterCondition).by_ ≠ .totalPoints →
        (cexSkipBet.skip).2 = cexSkipBet.outcomeValue
          cexSkipBet.decision.choice.toNat
          ({ by_ := .decisionUsers, whereCond := .gt, value := 12 } :
            FilterCondition).by_)) :=
  ⟨by decide,
   skip_comparedValue_by_key cexSkipBet
     { by_ := .decisionUsers, whereCond := .gt, value := 12 } (by decide)⟩

/-- Claim C2 counterexample: A prediction-result message for a live event
whose bet was never confirmed: `handlePredictionResult` early-returns, so
the event stays in the live map and the pending timer stays untouched. -/
theorem handlePredictionResult_unconfirmed_counterexample :
    ((handlePredictionsUser cexResultState "prediction-result" "e1"
        (some ("WIN", 100))).1.eventsPredictions.lookup "e1").isSome = true ∧
    "e1" ∈ (handlePredictionsUser cexResultState "prediction-result" "e1"
        (some ("WIN", 100))).1.pendingTimers ∧
    cexResultEvent.betConfirmed = false := by
  refine ⟨by decide, by decide, by decide⟩

/-- Claim C2 amended: For every prediction event present in the live events
map whose bet was confirmed, after a prediction-result message carrying a
result payload for that event id has been handled, the event is absent from
the live map and any pending one-shot bet timer keyed by that event id has
been stopped and removed. -/
theorem handlePredictionResult_confirmed_cleanup (st : MinerPredState)
    (id : String) (ev : EventPrediction) (res : String × ℤ)
    (hlook : st.eventsPredictions.lookup id = some ev)
    (hid : ev.eventID = id)
    (hconf : ev.betConfirmed = true) :
    (handlePredictionsUser st "prediction-result" id
        (some res)).1.eventsPredictions.lookup id = none ∧
    id ∉ (handlePredictionsUser st "prediction-result" id
        (some res)).1.pendingTimers ∧
    (id ∈ st.pendingTimers →
      (handlePredictionsUser st "prediction-result" id (some res)).2 = [id]) := by
  obtain ⟨rt, pw⟩ := res
  have hstep : handlePredictionsUser st "prediction-result" id (some (rt, pw)) =
      handlePredictionResult st ev (some (rt, pw)) := by
    unfold handlePredictionsUser
    rw [hlook]
    rfl
  rw [hstep]
  unfold handlePredictionResult
  rw [hconf, if_neg (by simp)]
  refine ⟨?_, ?_, ?_⟩
  · show (st.eventsPredictions.filter fun p => p.1 != ev.eventID).lookup id = none
    rw [hid]
    exact lookup_filter_bne st.eventsPredictions id
  · show id ∉ st.pendingTimers.filter fun t => t != ev.eventID
    rw [hid]
    exact not_mem_filter_bne st.pendingTimers id
  · intro hmem
    show (if ev.eventID ∈ st.pendingTimers then [ev.eventID] else []) = [id]
    rw [hid, if_pos hmem]

/-- Witness for C2 (amended) at the confirmed-event state. -/
theorem handlePredictionResult_confirmed_cleanup_witness :
    okResultState.eventsPredictions.lookup "e1" =
      some { cexResultEvent with betConfirmed := true } ∧
    ({ cexResultEvent with betConfirmed := true } :
        EventPrediction).eventID = "e1" ∧
    ({ cexResultEvent with betConfirmed := true } :
        EventPrediction).betConfirmed = true ∧
    ((handlePredictionsUser okResultState "prediction-result" "e1"
        (some ("WIN", 100))).1.eventsPredictions.lookup "e1" = none ∧
     "e1" ∉ (handlePredictionsUser okResultState "prediction-result" "e1"
        (some ("WIN", 100))).1.pendingTimers ∧
     ("e1" ∈ okResultState.pendingTimers →
       (handlePredictionsUser okResultState "prediction-result" "e1"
           (some ("WIN", 100))).2 = ["e1"])) :=
  ⟨by decide, by decide, by decide,
   handlePredictionResult_confirmed_cleanup okResultState "e1"
     { cexResultEvent with betConfirmed := true } ("WIN", 100)
     (by decide) (by decide) (by decide)⟩

/-- Claim C3 (code bug): the claim says ten consecutive failures open the
circuit breaker for `(fails−9) × 30 s` capped at 5 minutes, after which
requests fail fast with `CIRCUIT_OPEN`.  That is what `circuitBreaker`'s own
functions implement (last conjuncts: folding `recordFailure` directly over
ten failures yields a count of 10 and a cooldown ending 30 s after the last
failure), but `Client.doHTTPRequest` never reaches its trailing
`recordFailure()` call: every failing branch of the retry loop returns on
the final attempt first.  So a failing request leaves the breaker unchanged
(first conjunct), any request sequence leaves a fresh breaker in its
initial state (second conjunct), and after ten consecutive failed requests
the breaker is still closed with a zero failure count — the program's
breaker never opens. -/
theorem circuitBreaker_never_opens :
    (∀ (cb : CircuitBreaker) (now : ℚ),
        (gqlRequestStep cb now .failure).1.cooldownUntil = cb.cooldownUntil ∧
        (cb.shouldSkip now = false →
          (gqlRequestStep cb now .failure).1 = cb)) ∧
    (∀ reqs : List (ℚ × ReqResult),
        runRequests CircuitBreaker.initial reqs = CircuitBreaker.initial) ∧
    ((runRequests CircuitBreaker.initial tenFailures).consecutiveFails = 0 ∧
     (runRequests CircuitBreaker.initial tenFailures).cooldownUntil = 0 ∧
     (runRequests CircuitBreaker.initial tenFailures).shouldSkip 20 = false) ∧
    ((tenFailures.foldl (fun c r => c.recordFailure r.1)
        CircuitBreaker.initial).consecutiveFails = 10 ∧
     (tenFailures.foldl (fun c r => c.recordFailure r.1)
        CircuitBreaker.initial).cooldownUntil = 40 ∧
     (tenFailures.foldl (fun c r => c.recordFailure r.1)
        CircuitBreaker.initial).shouldSkip 20 = true) := by
  have hstep : ∀ (now : ℚ) (r : ReqResult),
      (gqlRequestStep CircuitBreaker.initial now r).1 = CircuitBreaker.initial := by
    intro now r
    unfold gqlRequestStep
    split
    · rfl
    · cases r <;> rfl
  have hrun : ∀ reqs : List (ℚ × ReqResult),
      runRequests CircuitBreaker.initial reqs = CircuitBreaker.initial := by
    intro reqs
    induction reqs with
    | nil => rfl
    | cons x rest ih =>
      show runRequests (gqlRequestStep CircuitBreaker.initial x.1 x.2).1 rest =
        CircuitBreaker.initial
      rw [hstep x.1 x.2]
      exact ih
  refine ⟨?_, hrun, ?_, ?_⟩
  · intro cb now
    constructor
    · unfold gqlRequestStep
      split <;> rfl
    · intro h
      unfold gqlRequestStep
      rw [h, if_neg Bool.false_ne_true]
  · rw [hrun tenFailures]
    exact ⟨rfl, rfl, by decide⟩
  · norm_num [tenFailures, CircuitBreaker.recordFailure, CircuitBreaker.initial,
      CircuitBreaker.shouldSkip, min_def]

/-- Witness for C3: a failed request at `now = 5` on a fresh (closed)
breaker leaves it untouched. -/
theorem circuitBreaker_never_opens_witness :
    CircuitBreaker.initial.shouldSkip 5 = false ∧
    (gqlRequestStep CircuitBreaker.initial 5 .failure).1 = CircuitBreaker.initial :=
  ⟨by decide,
   (circuitBreaker_never_opens.1 CircuitBreaker.initial 5).2 (by decide)⟩

/-- Claim C6: For every event whose computed bet decision has amount < 10,
which is still ACTIVE and not skipped by the filter, `MakePrediction` does
not issue the GQL prediction call, does not set `bet_placed`, and returns
no error. -/
theorem makePrediction_below_minimum (ev : EventPrediction) (bal red : ℤ)
    (gqlOk : Bool)
    (hact : ev.status = "ACTIVE")
    (hskip : ((ev.bet.calculateBet bal red).skip).1 = false)
    (hamt : (ev.bet.calculate bal red).amount < 10) :
    makePrediction ev bal red gqlOk =
      { event := { ev with bet := ev.bet.calculateBet bal red },
        gqlCalled := false, error := none } ∧
    (makePrediction ev bal red gqlOk).event.betPlaced = ev.betPlaced := by
  have hmain : makePrediction ev bal red gqlOk =
      { event := { ev with bet := ev.bet.calculateBet bal red },
        gqlCalled := false, error := none } := by
    unfold makePrediction
    rw [if_neg (by simp [hact])]
    rw [if_neg (by simp [hskip])]
    rw [if_pos (show (ev.bet.calculateBet bal red).decision.amount < 10 from hamt)]
  exact ⟨hmain, by rw [hmain]⟩

/-- Witness for C6: the sample ACTIVE event at balance 100 computes a 5
point bet that is silently skipped. -/
theorem makePrediction_below_minimum_witness :
    wEvent.status = "ACTIVE" ∧
    ((wEvent.bet.calculateBet 100 1).skip).1 = false ∧
    (wEvent.bet.calculate 100 1).amount < 10 ∧
    (makePrediction wEvent 100 1 true =
      { event := { wEvent with bet := wEvent.bet.calculateBet 100 1 },
        gqlCalled := false, error := none } ∧
     (makePrediction wEvent 100 1 true).event.betPlaced = wEvent.betPlaced) :=
  ⟨rfl, rfl, by rw [wEvent_amount]; norm_num,
   makePrediction_below_minimum wEvent 100 1 true rfl rfl
     (by rw [wEvent_amount]; norm_num)⟩

/-- Claim C7: `Pool.Subscribe` places a topic in the first existing connection
with capacity (fewer than 50 topics); with no capacity anywhere it creates a
new connection holding the topic; and with the pool at the 10-connection
maximum, all full, the subscription fails with the capacity error. -/
theorem subscribeSingle_policy :
    (∀ (pre post : List (List String)) (c : List String) (topic : String)
        (dialOk : Bool),
        (∀ c' ∈ pre, MaxTopicsPerConn ≤ c'.length) →
        c.length < MaxTopicsPerConn →
        subscribeSingle (pre ++ c :: post) topic dialOk =
          .ok (pre ++ connSubscribe c topic :: post)) ∧
    (∀ (conns : List (List String)) (topic : String),
        (∀ c ∈ conns, MaxTopicsPerConn ≤ c.length) →
        conns.length < MaxPubSubConns →
        subscribeSingle conns topic true = .ok (conns ++ [[topic]])) ∧
    (∀ (conns : List (List String)) (topic : String) (dialOk : Bool),
        (∀ c ∈ conns, MaxTopicsPerConn ≤ c.length) →
        MaxPubSubConns ≤ conns.length →
        subscribeSingle conns topic dialOk =
          .error "maximum number of PubSub connections reached") := by
  refine ⟨?_, ?_, ?_⟩
  · intro pre post c topic dialOk hpre hc
    unfold subscribeSingle
    rw [placeFirst_first pre c post topic hpre hc]
  · intro conns topic hfull hlen
    unfold subscribeSingle
    rw [placeFirst_none conns topic hfull]
    rw [if_neg (by omega)]
    rw [if_pos rfl]
    rfl
  · intro conns topic dialOk hfull hlen
    unfold subscribeSingle
    rw [placeFirst_none conns topic hfull]
    rw [if_pos hlen]

/-- Witness for C7: subscribing to an empty pool creates connection 0. -/
theorem subscribeSingle_policy_witness :
    (∀ c ∈ ([] : List (List String)), MaxTopicsPerConn ≤ c.length) ∧
    ([] : List (List String)).length < MaxPubSubConns ∧
    subscribeSingle [] "topic.1" true = .ok ([] ++ [["topic.1"]]) :=
  ⟨by simp, by decide,
   subscribeSingle_policy.2.1 [] "topic.1" (by simp) (by decide)⟩

/-- Claim C9: `SelectStreamersToWatch` returns at most `maxWatch` streamers
(defaulted to `MaxWatchStreams = 2` when nonpositive); and in the scenario
of ten eligible online streamers with priorities [STREAK, DROPS, ORDER],
none satisfying the streak condition and five the drops condition, the tick
selects exactly 2 streamers, both drawn from the drops-condition subset. -/
theorem selectStreamersToWatch_cap_and_scenario :
    (∀ (streamers : List Streamer) (priorities : List Priority)
        (maxWatch : ℤ) (now : ℚ),
        ((SelectStreamersToWatch streamers priorities maxWatch now).length : ℤ) ≤
          (if maxWatch ≤ 0 then MaxWatchStreams else maxWatch)) ∧
    (SelectStreamersToWatch scenarioStreamers [.streak, .drops, .order]
        2 0).length = 2 ∧
    (∀ s ∈ SelectStreamersToWatch scenarioStreamers [.streak, .drops, .order] 2 0,
        s.dropsCondition = true) := by
  have core : ∀ (streamers : List Streamer) (priorities : List Priority)
      (maxW : ℤ) (now : ℚ), 0 ≤ maxW →
      ((selectCore streamers priorities maxW now).length : ℤ) ≤ maxW := by
    intro streamers priorities maxW now hm
    simp only [selectCore]
    split
    · simpa using hm
    · exact length_truncate_le _ _ hm
  refine ⟨?_, by decide, by decide⟩
  intro streamers priorities maxWatch now
  have hpos : (0 : ℤ) ≤ if maxWatch ≤ 0 then MaxWatchStreams else maxWatch := by
    split
    · decide
    · omega
  exact core streamers priorities _ now hpos

/-- Witness for C9: a drops-eligible streamer selected in the scenario. -/
theorem selectStreamersToWatch_cap_and_scenario_witness :
    scenarioStreamer true ∈ SelectStreamersToWatch scenarioStreamers
      [.streak, .drops, .order] 2 0 ∧
    (scenarioStreamer true).dropsCondition = true :=
  ⟨by decide,
   selectStreamersToWatch_cap_and_scenario.2.2 (scenarioStreamer true) (by decide)⟩

/-- Claim C8: For every outcome list with positive total-user and total-point
sums, after `Bet.UpdateOutcomes` the derived per-outcome statistics satisfy:
`percentage_users_i = round2(100·users_i/U)` so the values sum to 100 within
`n/200` (each entry rounded to 2 decimal places moves by at most 1/200);
`odds_i = round2(P/points_i)` whenever `points_i ≠ 0`; and
`odds_percentage_i = round2(100/odds_i)` whenever `odds_i ≠ 0`. -/
theorem updateOutcomes_derivations (b : Bet) (updates : List Outcome)
    (hU : 0 < (b.updateOutcomes updates).totalUsers)
    (hP : 0 < (b.updateOutcomes updates).totalPoints) :
    (∀ o ∈ (b.updateOutcomes updates).outcomes,
       o.percentageUsers =
         floatRound (100 * (o.totalUsers : ℚ) /
           ((b.updateOutcomes updates).totalUsers : ℚ)) 2 ∧
       (o.totalPoints ≠ 0 →
         o.odds = floatRound
           (((b.updateOutcomes updates).totalPoints : ℚ) / (o.totalPoints : ℚ)) 2) ∧
       (o.odds ≠ 0 →
         o.oddsPercentage = floatRound (100 / o.odds) 2)) ∧
    |((b.updateOutcomes updates).outcomes.map (·.percentageUsers)).sum - 100| ≤
      ((b.updateOutcomes updates).outcomes.length : ℚ) / 200 := by
  have houts := updateOutcomes_outcomes_pos b updates hU hP
  constructor
  · intro o ho
    rw [houts] at ho
    obtain ⟨a, ha, rfl⟩ := List.mem_map.mp ho
    obtain ⟨h1, h2, h3, h4, h5⟩ := deriveStats_spec
      ((Bet.updateOutcomes.copyTotals b.outcomes updates).map (·.totalUsers)).sum
      ((Bet.updateOutcomes.copyTotals b.outcomes updates).map (·.totalPoints)).sum a
    refine ⟨?_, ?_, ?_⟩
    · rw [h3, h1, updateOutcomes_totalUsers]
    · intro hop
      rw [h2] at hop
      rw [h4, if_neg hop, h2, updateOutcomes_totalPoints]
    · intro hoo
      rw [h5, if_neg hoo]
  · rw [houts, List.map_map, List.length_map]
    have hfun : ((fun o : Outcome => o.percentageUsers) ∘
        Bet.updateOutcomes.deriveStats
          ((Bet.updateOutcomes.copyTotals b.outcomes updates).map (·.totalUsers)).sum
          ((Bet.updateOutcomes.copyTotals b.outcomes updates).map (·.totalPoints)).sum) =
        fun a : Outcome => floatRound (100 * (a.totalUsers : ℚ) /
          ((((Bet.updateOutcomes.copyTotals b.outcomes updates).map
            (·.totalUsers)).sum : ℤ) : ℚ)) 2 :=
      funext fun a => (deriveStats_spec _ _ a).2.2.1
    rw [hfun]
    have hUpos : (0 : ℤ) <
        ((Bet.updateOutcomes.copyTotals b.outcomes updates).map (·.totalUsers)).sum :=
      updateOutcomes_totalUsers b updates ▸ hU
    have hUne : ((((Bet.updateOutcomes.copyTotals b.outcomes updates).map
        (·.totalUsers)).sum : ℤ) : ℚ) ≠ 0 := by
      exact_mod_cast hUpos.ne'
    have hexact := sum_pct_exact (Bet.updateOutcomes.copyTotals b.outcomes updates)
      _ hUne (sum_map_cast_totalUsers _)
    calc |((Bet.updateOutcomes.copyTotals b.outcomes updates).map
            fun a : Outcome => floatRound (100 * (a.totalUsers : ℚ) /
              ((((Bet.updateOutcomes.copyTotals b.outcomes updates).map
                (·.totalUsers)).sum : ℤ) : ℚ)) 2).sum - 100|
        = |((Bet.updateOutcomes.copyTotals b.outcomes updates).map
            fun a : Outcome => floatRound (100 * (a.totalUsers : ℚ) /
              ((((Bet.updateOutcomes.copyTotals b.outcomes updates).map
                (·.totalUsers)).sum : ℤ) : ℚ)) 2).sum -
          ((Bet.updateOutcomes.copyTotals b.outcomes updates).map
            fun o : Outcome => 100 * (o.totalUsers : ℚ) /
              ((((Bet.updateOutcomes.copyTotals b.outcomes updates).map
                (·.totalUsers)).sum : ℤ) : ℚ)).sum| := by rw [hexact]
      _ ≤ ((Bet.updateOutcomes.copyTotals b.outcomes updates).length : ℚ) * (1/200) :=
          sum_map_sub_abs_le _ _ _ _ fun a _ => floatRound_sub_abs_le _
      _ = ((Bet.updateOutcomes.copyTotals b.outcomes updates).length : ℚ) / 200 := by
          ring

/-- Witness for C8: the sample update with 150 users and 15000 points. -/
theorem updateOutcomes_derivations_witness :
    0 < (wUpdateBet.updateOutcomes wUpdates).totalUsers ∧
    0 < (wUpdateBet.updateOutcomes wUpdates).totalPoints ∧
    ((∀ o ∈ (wUpdateBet.updateOutcomes wUpdates).outcomes,
        o.percentageUsers =
          floatRound (100 * (o.totalUsers : ℚ) /
            ((wUpdateBet.updateOutcomes wUpdates).totalUsers : ℚ)) 2 ∧
        (o.totalPoints ≠ 0 →
          o.odds = floatRound
            (((wUpdateBet.updateOutcomes wUpdates).totalPoints : ℚ) /
              (o.totalPoints : ℚ)) 2) ∧
        (o.odds ≠ 0 →
          o.oddsPercentage = floatRound (100 / o.odds) 2)) ∧
     |((wUpdateBet.updateOutcomes wUpdates).outcomes.map (·.percentageUsers)).sum - 100| ≤
       ((wUpdateBet.updateOutcomes wUpdates).outcomes.length : ℚ) / 200) :=
  ⟨by decide, by decide,
   updateOutcomes_derivations wUpdateBet wUpdates (by decide) (by decide)⟩

end TwitchMiner
